import Mathlib

/-!
Verification of the privilege-migration orchestrator (`role_changes.py`).

The Python source is shallow-embedded as pure Lean functions.  Each Graph
API interaction is recorded as an explicit `DirCall` event, console output
is recorded as `OutputEvent`s, exceptions become `Except MigError`, and the
single persisted state file becomes an `Option JVal` threaded through the
run.  The abstract `Directory` structure stands for the external Microsoft
Graph tenant state: its `lookupUser` field models `client.users.by_user_id(uid).get()`
(`none` means that call raises, e.g. the principal is a group, a service
principal, or no longer exists), and `apply_ok` / `revoke_ok` model whether
the (stubbed) `add_user_to_role_definition` / `remove_user_from_role_definition`
collaborator calls succeed or raise for a given role/principal pair.
-/

/-- Migration direction, mirroring the `Literal["forward", "rollback"]`
annotations in the source. -/
inductive Direction where
  | forward
  | rollback
deriving DecidableEq, Repr

/-- `FROM_ROLE_NAME` constant from the source. -/
def FROM_ROLE_NAME : String := "Too Many Perms"

/-- `TO_ROLE_NAME` constant from the source. -/
def TO_ROLE_NAME : String := "Just Right Perms"

/-- A unified directory role definition, as used by the source
(`d.display_name`, `d.id`). -/
structure RoleDefinition where
  id : String
  display_name : String
deriving DecidableEq, Repr

/-- A directory role assignment (`a.principal_id`, `a.role_definition_id`). -/
structure RoleAssignment where
  principal_id : String
  role_definition_id : String
deriving DecidableEq, Repr

/-- A Graph user object as consumed by the source (`user.id`,
`user.display_name`, `user.user_principal_name`); `user_principal_name` is
`none` when the attribute is absent (`getattr(u, "user_principal_name", None)`). -/
structure User where
  id : String
  display_name : String
  user_principal_name : Option String
deriving DecidableEq, Repr

/-- Abstract state of the external directory tenant for one run. -/
structure Directory where
  role_definitions : List RoleDefinition
  role_assignments : List RoleAssignment
  lookupUser : String → Option User
  apply_ok : String → String → Bool
  revoke_ok : String → String → Bool

/-- One request made to the Graph directory during a run. -/
inductive DirCall where
  | listRoleDefinitions
  | listRoleAssignments
  | getUser (uid : String)
  | applyGrant (roleDefId : String) (userId : String)
  | revokeGrant (roleDefId : String) (userId : String)
deriving DecidableEq, Repr

/-- Whether a directory call mutates tenant state. -/
def DirCall.isMutation : DirCall → Bool
  | .applyGrant _ _ => true
  | .revokeGrant _ _ => true
  | _ => false

/-- Console output of the run, abstracted to the print statements of the
source that carry information. -/
inductive OutputEvent where
  | modeBanner (dry_run : Bool)
  | directionBanner (source target : String)
  | foundRoleDef (name : String) (id : String)
  | foundMembers (count : Nat) (source : String)
  | memberLine (display_name : String) (upn : Option String)
  | nothingToDo (source : String)
  | dryRunComplete
  | startingMigration
  | processingUser (display_name : String) (upn : String)
  | addingRole (target : String)
  | removingRole (source : String)
  | stateSaved
  | migrationComplete (count : Nat)
  | noPreviousMigration
  | rollbackActivated
deriving DecidableEq, Repr

/-- Exceptions that can propagate out of the migration pipeline:
the `ValueError` of `get_role_definition_by_name`, and failures of the
apply / revoke collaborator calls. -/
inductive MigError where
  | roleNotFound (name : String)
  | applyFailed (roleDefId : String) (userId : String)
  | revokeFailed (roleDefId : String) (userId : String)
deriving DecidableEq, Repr

deriving instance DecidableEq for Except

/-- `get_all_role_definitions`: one Graph list call, returns every role
definition. -/
def get_all_role_definitions (d : Directory) : List DirCall × List RoleDefinition :=
  ([.listRoleDefinitions], d.role_definitions)

/-- `get_all_role_assignments`: one Graph list call, returns every role
assignment. -/
def get_all_role_assignments (d : Directory) : List DirCall × List RoleAssignment :=
  ([.listRoleAssignments], d.role_assignments)

/-- `get_role_definition_by_name`: first definition whose `display_name`
equals `name` exactly; raises `ValueError` (here `MigError.roleNotFound`)
when none matches. -/
def get_role_definition_by_name (d : Directory) (name : String) :
    List DirCall × Except MigError RoleDefinition :=
  let r := get_all_role_definitions d
  match r.2.find? (fun rd => rd.display_name == name) with
  | some rd => (r.1, .ok rd)
  | none => (r.1, .error (.roleNotFound name))

/-- `get_role_definition_id_by_name`: resolves the definition, prints the
found-definition line, and returns its id. -/
def get_role_definition_id_by_name (d : Directory) (name : String) :
    List DirCall × List OutputEvent × Except MigError String :=
  let r := get_role_definition_by_name d name
  match r.2 with
  | .ok rd => (r.1, [.foundRoleDef rd.display_name rd.id], .ok rd.id)
  | .error e => (r.1, [], .error e)

/-- `get_role_assignments_for_definition`: all assignments whose
`role_definition_id` equals the given id. -/
def get_role_assignments_for_definition (d : Directory) (role_def_id : String) :
    List DirCall × List RoleAssignment :=
  let r := get_all_role_assignments d
  (r.1, r.2.filter (fun a => a.role_definition_id == role_def_id))

/-- The `user_ids` list of `get_users_for_role_definition` (lines 64-65):
principal ids of all assignments of the role, user or not. -/
def candidate_principal_ids (d : Directory) (role_def_id : String) : List String :=
  ((get_role_assignments_for_definition d role_def_id).2).map (·.principal_id)

/-- Python truthiness of `getattr(u, "user_principal_name", None)`:
false for an absent attribute and for the empty string. -/
def upn_truthy : Option String → Bool
  | none => false
  | some s => !(s == "")

/-- The per-uid resolution loop of `get_users_for_role_definition`
(lines 67-75): each uid is fetched; a raising fetch (`lookupUser` = `none`)
is swallowed by the `except` clause and the loop continues; a fetched user
is kept only when its `user_principal_name` is truthy. -/
def resolve_users (d : Directory) : List String → List DirCall × List User
  | [] => ([], [])
  | uid :: rest =>
      let r := resolve_users d rest
      match d.lookupUser uid with
      | some u =>
          if upn_truthy u.user_principal_name then (.getUser uid :: r.1, u :: r.2)
          else (.getUser uid :: r.1, r.2)
      | none => (.getUser uid :: r.1, r.2)

/-- `get_users_for_role_definition`: user objects currently holding the
role via direct assignments. -/
def get_users_for_role_definition (d : Directory) (role_def_id : String) :
    List DirCall × List User :=
  let ra := get_role_assignments_for_definition d role_def_id
  let ru := resolve_users d (candidate_principal_ids d role_def_id)
  (ra.1 ++ ru.1, ru.2)

-- basic lemmas about the planner

lemma get_role_definition_by_name_calls (d : Directory) (name : String) :
    (get_role_definition_by_name d name).1 = [.listRoleDefinitions] := by
  unfold get_role_definition_by_name get_all_role_definitions
  dsimp only
  split <;> rfl

lemma get_role_definition_id_by_name_calls (d : Directory) (name : String) :
    (get_role_definition_id_by_name d name).1 = [.listRoleDefinitions] := by
  unfold get_role_definition_id_by_name
  dsimp only
  split <;> simp [get_role_definition_by_name_calls]

lemma resolve_users_calls (d : Directory) (ids : List String) :
    (resolve_users d ids).1 = ids.map DirCall.getUser := by
  induction ids with
  | nil => rfl
  | cons uid rest ih =>
      unfold resolve_users
      cases h : d.lookupUser uid with
      | none => simp [h, ih]
      | some u => by_cases hu : upn_truthy u.user_principal_name <;> simp [h, hu, ih]

lemma resolve_users_mem (d : Directory) (ids : List String) (u : User)
    (h : u ∈ (resolve_users d ids).2) :
    ∃ uid ∈ ids, d.lookupUser uid = some u ∧ upn_truthy u.user_principal_name = true := by
  induction ids with
  | nil => simp [resolve_users] at h
  | cons uid rest ih =>
      rw [resolve_users] at h
      split at h
      case h_1 w hl =>
        split at h
        case isTrue hw =>
          rcases List.mem_cons.mp h with h | h
          · exact ⟨uid, List.mem_cons_self _ _, by rw [hl, h], h ▸ hw⟩
          · obtain ⟨v, hv, hvu⟩ := ih h
            exact ⟨v, List.mem_cons_of_mem _ hv, hvu⟩
        case isFalse hw =>
          obtain ⟨v, hv, hvu⟩ := ih h
          exact ⟨v, List.mem_cons_of_mem _ hv, hvu⟩
      case h_2 hl =>
        obtain ⟨v, hv, hvu⟩ := ih h
        exact ⟨v, List.mem_cons_of_mem _ hv, hvu⟩

lemma resolve_users_complete (d : Directory) (ids : List String) (uid : String) (u : User)
    (hmem : uid ∈ ids) (hl : d.lookupUser uid = some u)
    (hu : upn_truthy u.user_principal_name = true) :
    u ∈ (resolve_users d ids).2 := by
  induction ids with
  | nil => simp at hmem
  | cons v rest ih =>
      rw [resolve_users]
      rcases List.mem_cons.mp hmem with h | h
      · subst h
        simp only [hl, hu, if_true]
        exact List.mem_cons_self _ _
      · cases hlv : d.lookupUser v with
        | none => simp only [hlv]; exact ih h
        | some w =>
            simp only [hlv]
            by_cases hw : upn_truthy w.user_principal_name
            · simp only [hw, if_true]
              exact List.mem_cons_of_mem _ (ih h)
            · simp only [hw, if_false, Bool.not_eq_true]
              exact ih h

lemma get_users_for_role_definition_calls (d : Directory) (rid : String) :
    (get_users_for_role_definition d rid).1 =
      .listRoleAssignments :: (candidate_principal_ids d rid).map DirCall.getUser := by
  unfold get_users_for_role_definition get_role_assignments_for_definition
    get_all_role_assignments
  simp [resolve_users_calls]

lemma get_users_for_role_definition_no_mutation (d : Directory) (rid : String) :
    ∀ c ∈ (get_users_for_role_definition d rid).1, c.isMutation = false := by
  rw [get_users_for_role_definition_calls]
  intro c hc
  rcases List.mem_cons.mp hc with h | h
  · subst h; rfl
  · obtain ⟨uid, _, h⟩ := List.mem_map.mp h
    subst h; rfl

lemma get_users_for_role_definition_mem (d : Directory) (rid : String) (u : User)
    (h : u ∈ (get_users_for_role_definition d rid).2) :
    ∃ uid ∈ candidate_principal_ids d rid,
      d.lookupUser uid = some u ∧ upn_truthy u.user_principal_name = true := by
  unfold get_users_for_role_definition at h
  exact resolve_users_mem d _ u h

lemma get_users_for_role_definition_complete (d : Directory) (rid : String)
    (uid : String) (u : User)
    (hmem : uid ∈ candidate_principal_ids d rid) (hl : d.lookupUser uid = some u)
    (hu : upn_truthy u.user_principal_name = true) :
    u ∈ (get_users_for_role_definition d rid).2 := by
  unfold get_users_for_role_definition
  exact resolve_users_complete d _ uid u hmem hl hu

-- ---------- State store (`save_state`, `STATE_FILE`) ----------

/-- A JSON value, enough to model what `json.dumps` writes to the state file. -/
inductive JVal where
  | str (s : String)
  | arr (xs : List JVal)
  | obj (fields : List (String × JVal))

/-- Top-level keys of a JSON object. -/
def jsonKeys : JVal → List String
  | .obj fields => fields.map (·.1)
  | _ => []

/-- The string the source stores in the record's `direction` field. -/
def direction_str : Direction → String
  | .forward => "forward"
  | .rollback => "rollback"

/-- One entry of the `affected` list built by `migrate`
(`{"userId": ..., "displayName": ..., "userPrincipalName": ...}`). -/
structure AffectedUser where
  userId : String
  displayName : String
  userPrincipalName : String
deriving DecidableEq, Repr

/-- JSON object for one affected user, with the source's key names. -/
def affected_user_json (u : AffectedUser) : JVal :=
  .obj [("userId", .str u.userId), ("displayName", .str u.displayName),
        ("userPrincipalName", .str u.userPrincipalName)]

/-- The JSON record `save_state` builds (its `state` dict, key order and
names as in the source; the timestamp string is supplied by the caller
since `datetime.now()` is environmental). -/
def save_state_json (timestamp : String) (direction : Direction)
    (affected_users : List AffectedUser) : JVal :=
  .obj [("timestamp", .str timestamp),
        ("direction", .str (direction_str direction)),
        ("from_role", .str (if direction = .forward then FROM_ROLE_NAME else TO_ROLE_NAME)),
        ("to_role", .str (if direction = .forward then TO_ROLE_NAME else FROM_ROLE_NAME)),
        ("affected_users", .arr (affected_users.map affected_user_json))]

/-- `save_state`: `STATE_FILE.write_text(json.dumps(state))` — the previous
file contents are ignored and overwritten. -/
def save_state (timestamp : String) (_prev : Option JVal) (direction : Direction)
    (affected_users : List AffectedUser) : Option JVal :=
  some (save_state_json timestamp direction affected_users)

-- ---------- Executor (`migrate`) ----------

/-- `source_role_name` as computed on line 106 of the source. -/
def source_role_name : Direction → String
  | .forward => FROM_ROLE_NAME
  | .rollback => TO_ROLE_NAME

/-- `target_role_name` as computed on line 107 of the source. -/
def target_role_name : Direction → String
  | .forward => TO_ROLE_NAME
  | .rollback => FROM_ROLE_NAME

/-- Python `user.user_principal_name or "unknown"`: falsy (absent or empty)
becomes `"unknown"`. -/
def upn_or_unknown : Option String → String
  | none => "unknown"
  | some s => if s == "" then "unknown" else s

/-- The per-principal migration loop of `migrate` (lines 133-149).  Each
iteration prints the processing banner, awaits the apply call, then awaits
the revoke call, then appends the affected-user entry.  A raising apply or
revoke call (modelled by `apply_ok` / `revoke_ok` returning `false`)
propagates out of the loop: no later principal is processed. -/
def migrate_loop (d : Directory) (tname sname tid sid : String) :
    List User → List DirCall × List OutputEvent × Except MigError (List AffectedUser)
  | [] => ([], [], .ok [])
  | user :: rest =>
      let upn := upn_or_unknown user.user_principal_name
      if d.apply_ok tid user.id then
        if d.revoke_ok sid user.id then
          let r := migrate_loop d tname sname tid sid rest
          (.applyGrant tid user.id :: .revokeGrant sid user.id :: r.1,
           .processingUser user.display_name upn :: .addingRole tname ::
             .removingRole sname :: r.2.1,
           match r.2.2 with
           | .ok affected => .ok (⟨user.id, user.display_name, upn⟩ :: affected)
           | .error e => .error e)
        else
          ([.applyGrant tid user.id, .revokeGrant sid user.id],
           [.processingUser user.display_name upn, .addingRole tname, .removingRole sname],
           .error (.revokeFailed sid user.id))
      else
        ([.applyGrant tid user.id],
         [.processingUser user.display_name upn, .addingRole tname],
         .error (.applyFailed tid user.id))

/-- Effect trace of one `migrate` invocation: directory calls, console
output, the affected-user list handed to `save_state` (when reached), and
the exception that escaped, if any. -/
structure MigOut where
  dirCalls : List DirCall
  output : List OutputEvent
  saved : Option (List AffectedUser)
  result : Except MigError Unit

/-- `migrate` (lines 105-152), minus the file write: resolves both role
ids, enumerates current source-role members, stops early on an empty plan
or in dry-run mode, otherwise runs the per-principal loop and, only when
the whole loop succeeded, reaches `save_state` with the affected list. -/
def migrate_effects (d : Directory) (direction : Direction) (dry_run : Bool) : MigOut :=
  let sname := source_role_name direction
  let tname := target_role_name direction
  let banner : List OutputEvent := [.modeBanner dry_run, .directionBanner sname tname]
  let rs := get_role_definition_id_by_name d sname
  match rs.2.2 with
  | .error e => ⟨rs.1, banner ++ rs.2.1, none, .error e⟩
  | .ok sid =>
    let rt := get_role_definition_id_by_name d tname
    match rt.2.2 with
    | .error e => ⟨rs.1 ++ rt.1, banner ++ rs.2.1 ++ rt.2.1, none, .error e⟩
    | .ok tid =>
      let ru := get_users_for_role_definition d sid
      let members := ru.2
      let calls := rs.1 ++ rt.1 ++ ru.1
      let outHead := banner ++ rs.2.1 ++ rt.2.1
      if members.isEmpty then
        ⟨calls, outHead ++ [.nothingToDo sname], none, .ok ()⟩
      else
        let memberOut := OutputEvent.foundMembers members.length sname ::
          members.map (fun u => OutputEvent.memberLine u.display_name u.user_principal_name)
        if dry_run then
          ⟨calls, outHead ++ memberOut ++ [.dryRunComplete], none, .ok ()⟩
        else
          let rl := migrate_loop d tname sname tid sid members
          match rl.2.2 with
          | .error e =>
              ⟨calls ++ rl.1, outHead ++ memberOut ++ (.startingMigration :: rl.2.1),
               none, .error e⟩
          | .ok affected =>
              ⟨calls ++ rl.1,
               outHead ++ memberOut ++ (.startingMigration :: rl.2.1) ++
                 [.stateSaved, .migrationComplete affected.length],
               some affected, .ok ()⟩

/-- Result of a run including the state file. -/
structure RunResult where
  dirCalls : List DirCall
  output : List OutputEvent
  fileState : Option JVal
  result : Except MigError Unit

/-- `migrate` with the state file threaded: the file is rewritten exactly
when `save_state` is reached (successful live run on a nonempty plan). -/
def migrate (d : Directory) (fs : Option JVal) (timestamp : String)
    (direction : Direction) (dry_run : Bool) : RunResult :=
  let m := migrate_effects d direction dry_run
  ⟨m.dirCalls, m.output,
   match m.saved with
   | some affected => save_state timestamp fs direction affected
   | none => fs,
   m.result⟩

/-- The `main` entry point (lines 154-169): picks the direction from `--rollback`; in
rollback mode a missing state file prints the cannot-rollback message and
returns before `migrate` is ever entered; otherwise the file's contents
are not inspected and `migrate` runs. -/
def role_changes_main (d : Directory) (fs : Option JVal) (timestamp : String)
    (rollback dry_run : Bool) : RunResult :=
  let direction := if rollback then Direction.rollback else Direction.forward
  if rollback then
    match fs with
    | none => ⟨[], [.noPreviousMigration], none, .ok ()⟩
    | some st =>
        let r := migrate d (some st) timestamp direction dry_run
        ⟨r.dirCalls, .rollbackActivated :: r.output, r.fileState, r.result⟩
  else
    migrate d fs timestamp direction dry_run

-- ---------- Derived notions used by the claims ----------

/-- The plan of a run: the member list a live run in this direction would
iterate over (the `members` local of `migrate`); empty when the source
role name does not resolve. -/
def plan_members (d : Directory) (direction : Direction) : List User :=
  match (get_role_definition_id_by_name d (source_role_name direction)).2.2 with
  | .ok sid => (get_users_for_role_definition d sid).2
  | .error _ => []

/-- Projection of an output event to a member line, when it is one. -/
def member_line_of : OutputEvent → Option (String × Option String)
  | .memberLine n upn => some (n, upn)
  | _ => none

/-- The member lines printed by a run, in order. -/
def displayed_members (out : List OutputEvent) : List (String × Option String) :=
  out.filterMap member_line_of

/-- Scanner for the grant-before-revoke ordering: every `revokeGrant` for a
principal must be preceded (strictly earlier in the call list) by an
`applyGrant` for the same principal; `seen` accumulates principals already
granted. -/
def apply_before_revoke : List DirCall → List String → Bool
  | [], _ => true
  | c :: rest, seen =>
      match c with
      | .applyGrant _ uid => apply_before_revoke rest (uid :: seen)
      | .revokeGrant _ uid => seen.contains uid && apply_before_revoke rest seen
      | _ => apply_before_revoke rest seen

@[simp] lemma member_line_of_memberLine (n : String) (upn : Option String) :
    member_line_of (.memberLine n upn) = some (n, upn) := rfl

@[simp] lemma member_line_of_modeBanner (b : Bool) :
    member_line_of (.modeBanner b) = none := rfl

@[simp] lemma member_line_of_directionBanner (s t : String) :
    member_line_of (.directionBanner s t) = none := rfl

@[simp] lemma member_line_of_foundRoleDef (n i : String) :
    member_line_of (.foundRoleDef n i) = none := rfl

@[simp] lemma member_line_of_foundMembers (k : Nat) (s : String) :
    member_line_of (.foundMembers k s) = none := rfl

@[simp] lemma member_line_of_nothingToDo (s : String) :
    member_line_of (.nothingToDo s) = none := rfl

@[simp] lemma member_line_of_dryRunComplete :
    member_line_of .dryRunComplete = none := rfl

@[simp] lemma member_line_of_startingMigration :
    member_line_of .startingMigration = none := rfl

@[simp] lemma member_line_of_processingUser (n u : String) :
    member_line_of (.processingUser n u) = none := rfl

@[simp] lemma member_line_of_addingRole (t : String) :
    member_line_of (.addingRole t) = none := rfl

@[simp] lemma member_line_of_removingRole (s : String) :
    member_line_of (.removingRole s) = none := rfl

@[simp] lemma member_line_of_stateSaved :
    member_line_of .stateSaved = none := rfl

@[simp] lemma member_line_of_migrationComplete (k : Nat) :
    member_line_of (.migrationComplete k) = none := rfl

@[simp] lemma member_line_of_noPreviousMigration :
    member_line_of .noPreviousMigration = none := rfl

@[simp] lemma member_line_of_rollbackActivated :
    member_line_of .rollbackActivated = none := rfl

lemma apply_before_revoke_cons_apply (r u : String) (rest : List DirCall)
    (seen : List String) :
    apply_before_revoke (.applyGrant r u :: rest) seen =
      apply_before_revoke rest (u :: seen) := rfl

lemma apply_before_revoke_cons_revoke (r u : String) (rest : List DirCall)
    (seen : List String) :
    apply_before_revoke (.revokeGrant r u :: rest) seen =
      (seen.contains u && apply_before_revoke rest seen) := rfl

lemma apply_before_revoke_cons_other (c : DirCall) (rest : List DirCall)
    (seen : List String) (h : c.isMutation = false) :
    apply_before_revoke (c :: rest) seen = apply_before_revoke rest seen := by
  cases c with
  | listRoleDefinitions => rfl
  | listRoleAssignments => rfl
  | getUser uid => rfl
  | applyGrant r u => simp [DirCall.isMutation] at h
  | revokeGrant r u => simp [DirCall.isMutation] at h

-- ---------- Concrete tenant states used as test vectors ----------

/-- Holder of the source role that migrates cleanly. -/
def userA : User := ⟨"uid-a", "Alice", some "alice@contoso.com"⟩

/-- Holder of the source role whose apply call is made to fail. -/
def userB : User := ⟨"uid-b", "Bob", some "bob@contoso.com"⟩

/-- Third holder of the source role. -/
def userC : User := ⟨"uid-c", "Carol", some "carol@contoso.com"⟩

/-- A directory user with no `userPrincipalName` attribute. -/
def userN : User := ⟨"uid-n", "NoUpnUser", none⟩

/-- A directory user whose `userPrincipalName` is the empty string. -/
def userE : User := ⟨"uid-e", "EmptyUpnUser", some ""⟩

/-- The configured source role definition. -/
def roleTMP : RoleDefinition := ⟨"tmp-id", "Too Many Perms"⟩

/-- The configured target role definition. -/
def roleJRP : RoleDefinition := ⟨"jrp-id", "Just Right Perms"⟩

/-- User lookup table shared by the example tenants; every other id
(e.g. `"gid-g"`, a group) raises on fetch. -/
def exLookup : String → Option User := fun uid =>
  if uid == "uid-a" then some userA
  else if uid == "uid-b" then some userB
  else if uid == "uid-c" then some userC
  else if uid == "uid-n" then some userN
  else if uid == "uid-e" then some userE
  else none

/-- Tenant with three holders of the source role where the apply call
fails for Bob only. -/
def exDirB : Directory :=
  { role_definitions := [roleTMP, roleJRP]
    role_assignments := [⟨"uid-a", "tmp-id"⟩, ⟨"uid-b", "tmp-id"⟩, ⟨"uid-c", "tmp-id"⟩]
    lookupUser := exLookup
    apply_ok := fun _ uid => !(uid == "uid-b")
    revoke_ok := fun _ _ => true }

/-- Tenant where Bob currently holds the target role (state after some
forward migration), all calls succeeding; used for rollback runs. -/
def exDirRoll : Directory :=
  { role_definitions := [roleTMP, roleJRP]
    role_assignments := [⟨"uid-b", "jrp-id"⟩]
    lookupUser := exLookup
    apply_ok := fun _ _ => true
    revoke_ok := fun _ _ => true }

/-- Tenant whose source-role assignments include a group (`gid-g`, raises
on user fetch), a user without UPN, a user with empty UPN, and Alice. -/
def exDirMixed : Directory :=
  { role_definitions := [roleTMP, roleJRP]
    role_assignments := [⟨"gid-g", "tmp-id"⟩, ⟨"uid-a", "tmp-id"⟩,
                         ⟨"uid-n", "tmp-id"⟩, ⟨"uid-e", "tmp-id"⟩]
    lookupUser := exLookup
    apply_ok := fun _ _ => true
    revoke_ok := fun _ _ => true }

/-- Tenant where the roles exist but nobody holds the source role. -/
def exDirEmpty : Directory :=
  { role_definitions := [roleTMP, roleJRP]
    role_assignments := []
    lookupUser := exLookup
    apply_ok := fun _ _ => true
    revoke_ok := fun _ _ => true }

/-- Tenant with no role definitions at all: name resolution fails. -/
def exDirNoRoles : Directory :=
  { role_definitions := []
    role_assignments := []
    lookupUser := fun _ => none
    apply_ok := fun _ _ => true
    revoke_ok := fun _ _ => true }

/-- A previously persisted record naming Alice as the affected user. -/
def exRecA : JVal := save_state_json "2024-01-01T00:00:00Z" .forward
  [⟨"uid-a", "Alice", "alice@contoso.com"⟩]

/-- A previously persisted record with an empty affected list. -/
def exRecNone : JVal := save_state_json "2024-01-01T00:00:00Z" .forward []

-- ---------- Lemmas about the executor loop ----------

lemma migrate_loop_revoke_mem (d : Directory) (tname sname tid sid : String)
    (users : List User) (s u : String)
    (h : DirCall.revokeGrant s u ∈ (migrate_loop d tname sname tid sid users).1) :
    d.apply_ok tid u = true := by
  induction users with
  | nil => simp [migrate_loop] at h
  | cons v rest ih =>
      rw [migrate_loop] at h
      by_cases ha : d.apply_ok tid v.id
      · by_cases hr : d.revoke_ok sid v.id
        · simp only [ha, hr, if_true] at h
          rcases List.mem_cons.mp h with h | h
          · exact absurd h (by simp)
          · rcases List.mem_cons.mp h with h | h
            · obtain ⟨_, hu⟩ := DirCall.revokeGrant.inj h
              exact hu ▸ ha
            · exact ih h
        · simp only [ha, hr, if_true, if_false, Bool.not_eq_true] at h
          rcases List.mem_cons.mp h with h | h
          · exact absurd h (by simp)
          · rcases List.mem_cons.mp h with h | h
            · obtain ⟨_, hu⟩ := DirCall.revokeGrant.inj h
              exact hu ▸ ha
            · exact absurd h (by simp)
      · simp only [ha, if_false, Bool.not_eq_true] at h
        rcases List.mem_cons.mp h with h | h
        · exact absurd h (by simp)
        · exact absurd h (by simp)

lemma migrate_loop_apply_mem (d : Directory) (tname sname tid sid : String)
    (users : List User) (t u : String)
    (h : DirCall.applyGrant t u ∈ (migrate_loop d tname sname tid sid users).1) :
    t = tid ∧ u ∈ users.map User.id := by
  induction users with
  | nil => simp [migrate_loop] at h
  | cons v rest ih =>
      rw [migrate_loop] at h
      by_cases ha : d.apply_ok tid v.id
      · by_cases hr : d.revoke_ok sid v.id
        · simp only [ha, hr, if_true] at h
          rcases List.mem_cons.mp h with h | h
          · obtain ⟨ht, hu⟩ := DirCall.applyGrant.inj h
            exact ⟨ht, by simp [hu]⟩
          · rcases List.mem_cons.mp h with h | h
            · exact absurd h (by simp)
            · obtain ⟨ht, hu⟩ := ih h
              exact ⟨ht, by simp [hu]⟩
        · simp only [ha, hr, if_true, if_false, Bool.not_eq_true] at h
          rcases List.mem_cons.mp h with h | h
          · obtain ⟨ht, hu⟩ := DirCall.applyGrant.inj h
            exact ⟨ht, by simp [hu]⟩
          · rcases List.mem_cons.mp h with h | h
            · exact absurd h (by simp)
            · exact absurd h (by simp)
      · simp only [ha, if_false, Bool.not_eq_true] at h
        rcases List.mem_cons.mp h with h | h
        · obtain ⟨ht, hu⟩ := DirCall.applyGrant.inj h
          exact ⟨ht, by simp [hu]⟩
        · exact absurd h (by simp)

lemma apply_before_revoke_append (xs ys : List DirCall) (seen : List String)
    (h : ∀ c ∈ xs, c.isMutation = false) :
    apply_before_revoke (xs ++ ys) seen = apply_before_revoke ys seen := by
  induction xs with
  | nil => rfl
  | cons c cs ih =>
      have hrest := ih (fun c hc => h c (List.mem_cons_of_mem _ hc))
      rw [List.cons_append,
        apply_before_revoke_cons_other c _ _ (h c (List.mem_cons_self _ _))]
      exact hrest

lemma migrate_loop_apply_before_revoke (d : Directory) (tname sname tid sid : String)
    (users : List User) (seen : List String) :
    apply_before_revoke (migrate_loop d tname sname tid sid users).1 seen = true := by
  induction users generalizing seen with
  | nil => rfl
  | cons v rest ih =>
      rw [migrate_loop]
      by_cases ha : d.apply_ok tid v.id
      · by_cases hr : d.revoke_ok sid v.id
        · simp only [ha, hr, if_true]
          rw [apply_before_revoke_cons_apply, apply_before_revoke_cons_revoke]
          simp only [List.contains_cons, beq_self_eq_true, Bool.true_or, Bool.true_and]
          exact ih _
        · simp only [ha, hr, if_true, if_false, Bool.not_eq_true, Bool.false_eq_true]
          rw [apply_before_revoke_cons_apply, apply_before_revoke_cons_revoke]
          simp [apply_before_revoke]
      · simp only [ha, if_false, Bool.not_eq_true, Bool.false_eq_true]
        rw [apply_before_revoke_cons_apply]
        rfl

lemma migrate_loop_no_member_line (d : Directory) (tname sname tid sid : String)
    (users : List User) :
    displayed_members (migrate_loop d tname sname tid sid users).2.1 = [] := by
  induction users with
  | nil => rfl
  | cons v rest ih =>
      rw [migrate_loop]
      by_cases ha : d.apply_ok tid v.id
      · by_cases hr : d.revoke_ok sid v.id
        · simp only [ha, hr, if_true]
          simp only [displayed_members, List.filterMap_cons, member_line_of_processingUser,
            member_line_of_addingRole, member_line_of_removingRole]
          exact ih
        · simp only [ha, hr, if_true, if_false, Bool.not_eq_true, Bool.false_eq_true]
          rfl
      · simp only [ha, if_false, Bool.not_eq_true, Bool.false_eq_true]
        rfl

lemma migrate_loop_error_shape (d : Directory) (tname sname tid sid : String)
    (users : List User) (e : MigError)
    (h : (migrate_loop d tname sname tid sid users).2.2 = .error e) :
    (∃ u, e = .applyFailed tid u) ∨ (∃ u, e = .revokeFailed sid u) := by
  induction users generalizing e with
  | nil => simp [migrate_loop] at h
  | cons v rest ih =>
      rw [migrate_loop] at h
      by_cases ha : d.apply_ok tid v.id
      · by_cases hr : d.revoke_ok sid v.id
        · simp only [ha, hr, if_true] at h
          cases hrec : (migrate_loop d tname sname tid sid rest).2.2 with
          | ok affected => rw [hrec] at h; simp at h
          | error e2 =>
              rw [hrec] at h
              simp only [Except.error.injEq] at h
              exact h ▸ ih e2 hrec
        · simp only [ha, hr, if_true, if_false, Bool.not_eq_true] at h
          obtain rfl := (Except.error.inj h).symm
          exact Or.inr ⟨v.id, rfl⟩
      · simp only [ha, if_false, Bool.not_eq_true] at h
        obtain rfl := (Except.error.inj h).symm
        exact Or.inl ⟨v.id, rfl⟩

lemma displayed_members_append (xs ys : List OutputEvent) :
    displayed_members (xs ++ ys) = displayed_members xs ++ displayed_members ys := by
  simp [displayed_members, List.filterMap_append]

lemma displayed_members_member_lines (members : List User) :
    displayed_members (members.map
      (fun u => OutputEvent.memberLine u.display_name u.user_principal_name)) =
    members.map (fun u => (u.display_name, u.user_principal_name)) := by
  induction members with
  | nil => rfl
  | cons v rest ih =>
      simp only [List.map_cons, displayed_members, List.filterMap_cons,
        member_line_of_memberLine] at ih ⊢
      rw [ih]

lemma get_role_definition_id_by_name_no_member_line (d : Directory) (name : String) :
    displayed_members (get_role_definition_id_by_name d name).2.1 = [] := by
  unfold get_role_definition_id_by_name
  dsimp only
  split <;> rfl

-- ---------- Lemmas about `migrate_effects` ----------

lemma displayed_members_cons_none (e : OutputEvent) (rest : List OutputEvent)
    (h : member_line_of e = none) :
    displayed_members (e :: rest) = displayed_members rest := by
  unfold displayed_members
  rw [List.filterMap_cons, h]

lemma migrate_effects_error_saved_none (d : Directory) (dir : Direction) (dry : Bool)
    (e : MigError) :
    (migrate_effects d dir dry).result = .error e → (migrate_effects d dir dry).saved = none := by
  unfold migrate_effects
  dsimp only
  split
  · intro _; rfl
  · split
    · intro _; rfl
    · split
      · intro _; rfl
      · split
        · intro _; rfl
        · split
          · intro _; rfl
          · intro h; exact absurd h (by simp)

lemma migrate_effects_saved_fileState (d : Directory) (fs : Option JVal) (ts : String)
    (dir : Direction) (dry : Bool) :
    (migrate d fs ts dir dry).fileState =
      (match (migrate_effects d dir dry).saved with
       | some affected => save_state ts fs dir affected
       | none => fs) := rfl

lemma migrate_error_fileState (d : Directory) (fs : Option JVal) (ts : String)
    (dir : Direction) (dry : Bool) (e : MigError)
    (h : (migrate d fs ts dir dry).result = .error e) :
    (migrate d fs ts dir dry).fileState = fs := by
  have hs : (migrate_effects d dir dry).saved = none :=
    migrate_effects_error_saved_none d dir dry e h
  rw [migrate_effects_saved_fileState, hs]

lemma migrate_effects_dry_saved_none (d : Directory) (dir : Direction) :
    (migrate_effects d dir true).saved = none := by
  unfold migrate_effects
  dsimp only
  split
  · rfl
  · split
    · rfl
    · split
      · rfl
      · rfl

lemma migrate_effects_dry_no_mutation (d : Directory) (dir : Direction) :
    ∀ c ∈ (migrate_effects d dir true).dirCalls, c.isMutation = false := by
  unfold migrate_effects
  dsimp only
  split
  · intro c hc
    rw [get_role_definition_id_by_name_calls] at hc
    simp only [List.mem_singleton] at hc
    subst hc; rfl
  · split
    · intro c hc
      rw [get_role_definition_id_by_name_calls, get_role_definition_id_by_name_calls] at hc
      simp only [List.mem_append, List.mem_singleton] at hc
      rcases hc with h | h <;> (subst h; rfl)
    · split
      · intro c hc
        rw [get_role_definition_id_by_name_calls, get_role_definition_id_by_name_calls] at hc
        simp only [List.mem_append, List.mem_singleton] at hc
        rcases hc with (h | h) | h
        · subst h; rfl
        · subst h; rfl
        · exact get_users_for_role_definition_no_mutation d _ c h
      · intro c hc
        rw [if_pos rfl] at hc
        rw [get_role_definition_id_by_name_calls, get_role_definition_id_by_name_calls] at hc
        simp only [List.mem_append, List.mem_singleton] at hc
        rcases hc with (h | h) | h
        · subst h; rfl
        · subst h; rfl
        · exact get_users_for_role_definition_no_mutation d _ c h

@[simp] lemma displayed_members_nil : displayed_members [] = [] := rfl

lemma resolution_calls_no_mutation (d : Directory) (n1 n2 rid : String) :
    ∀ c ∈ (get_role_definition_id_by_name d n1).1 ++ (get_role_definition_id_by_name d n2).1 ++
        (get_users_for_role_definition d rid).1, c.isMutation = false := by
  intro c hc
  rw [get_role_definition_id_by_name_calls, get_role_definition_id_by_name_calls] at hc
  simp only [List.mem_append, List.mem_singleton] at hc
  rcases hc with (h | h) | h
  · subst h; rfl
  · subst h; rfl
  · exact get_users_for_role_definition_no_mutation d _ c h

lemma apply_before_revoke_of_no_mutation (xs : List DirCall) (seen : List String)
    (h : ∀ c ∈ xs, c.isMutation = false) :
    apply_before_revoke xs seen = true := by
  induction xs with
  | nil => rfl
  | cons c cs ih =>
      rw [apply_before_revoke_cons_other c _ _ (h c (List.mem_cons_self _ _))]
      exact ih (fun c hc => h c (List.mem_cons_of_mem _ hc))

lemma migrate_effects_apply_mem (d : Directory) (dir : Direction) (dry : Bool)
    (t u : String) :
    DirCall.applyGrant t u ∈ (migrate_effects d dir dry).dirCalls →
    (get_role_definition_id_by_name d (target_role_name dir)).2.2 = .ok t ∧
      u ∈ (plan_members d dir).map User.id := by
  unfold migrate_effects
  dsimp only
  split
  · intro h
    exact absurd h (by simp [get_role_definition_id_by_name_calls])
  · rename_i sid heqS
    split
    · intro h
      rw [get_role_definition_id_by_name_calls, get_role_definition_id_by_name_calls] at h
      simp at h
    · rename_i tid heqT
      split
      · intro h
        exact absurd (resolution_calls_no_mutation d _ _ _ _ h) (by simp [DirCall.isMutation])
      · split
        · intro h
          exact absurd (resolution_calls_no_mutation d _ _ _ _ h) (by simp [DirCall.isMutation])
        · split
          · intro h
            rw [List.mem_append] at h
            rcases h with h | h
            · exact absurd (resolution_calls_no_mutation d _ _ _ _ h)
                (by simp [DirCall.isMutation])
            · obtain ⟨ht, hu⟩ := migrate_loop_apply_mem d _ _ _ _ _ _ _ h
              subst ht
              refine ⟨heqT, ?_⟩
              simp only [plan_members, heqS]
              exact hu
          · intro h
            rw [List.mem_append] at h
            rcases h with h | h
            · exact absurd (resolution_calls_no_mutation d _ _ _ _ h)
                (by simp [DirCall.isMutation])
            · obtain ⟨ht, hu⟩ := migrate_loop_apply_mem d _ _ _ _ _ _ _ h
              subst ht
              refine ⟨heqT, ?_⟩
              simp only [plan_members, heqS]
              exact hu

lemma migrate_effects_revoke_mem (d : Directory) (dir : Direction) (dry : Bool)
    (s u : String) :
    DirCall.revokeGrant s u ∈ (migrate_effects d dir dry).dirCalls →
    ∃ tid, (get_role_definition_id_by_name d (target_role_name dir)).2.2 = .ok tid ∧
      d.apply_ok tid u = true := by
  unfold migrate_effects
  dsimp only
  split
  · intro h
    exact absurd h (by simp [get_role_definition_id_by_name_calls])
  · rename_i sid heqS
    split
    · intro h
      rw [get_role_definition_id_by_name_calls, get_role_definition_id_by_name_calls] at h
      simp at h
    · rename_i tid heqT
      split
      · intro h
        exact absurd (resolution_calls_no_mutation d _ _ _ _ h) (by simp [DirCall.isMutation])
      · split
        · intro h
          exact absurd (resolution_calls_no_mutation d _ _ _ _ h) (by simp [DirCall.isMutation])
        · split
          · intro h
            rw [List.mem_append] at h
            rcases h with h | h
            · exact absurd (resolution_calls_no_mutation d _ _ _ _ h)
                (by simp [DirCall.isMutation])
            · exact ⟨tid, heqT, migrate_loop_revoke_mem d _ _ _ _ _ _ _ h⟩
          · intro h
            rw [List.mem_append] at h
            rcases h with h | h
            · exact absurd (resolution_calls_no_mutation d _ _ _ _ h)
                (by simp [DirCall.isMutation])
            · exact ⟨tid, heqT, migrate_loop_revoke_mem d _ _ _ _ _ _ _ h⟩

lemma migrate_effects_apply_before_revoke (d : Directory) (dir : Direction) (dry : Bool) :
    apply_before_revoke (migrate_effects d dir dry).dirCalls [] = true := by
  unfold migrate_effects
  dsimp only
  split
  · refine apply_before_revoke_of_no_mutation _ _ ?_
    intro c hc
    rw [get_role_definition_id_by_name_calls] at hc
    simp only [List.mem_singleton] at hc
    subst hc; rfl
  · split
    · refine apply_before_revoke_of_no_mutation _ _ ?_
      intro c hc
      rw [get_role_definition_id_by_name_calls, get_role_definition_id_by_name_calls] at hc
      simp only [List.mem_append, List.mem_singleton] at hc
      rcases hc with h | h <;> (subst h; rfl)
    · split
      · exact apply_before_revoke_of_no_mutation _ _ (resolution_calls_no_mutation d _ _ _)
      · split
        · exact apply_before_revoke_of_no_mutation _ _ (resolution_calls_no_mutation d _ _ _)
        · split
          · rw [apply_before_revoke_append _ _ _ (resolution_calls_no_mutation d _ _ _)]
            exact migrate_loop_apply_before_revoke d _ _ _ _ _ _
          · rw [apply_before_revoke_append _ _ _ (resolution_calls_no_mutation d _ _ _)]
            exact migrate_loop_apply_before_revoke d _ _ _ _ _ _

lemma migrate_effects_displayed (d : Directory) (dir : Direction) (dry : Bool) :
    displayed_members (migrate_effects d dir dry).output =
      (match (get_role_definition_id_by_name d (source_role_name dir)).2.2 with
       | .error _ => []
       | .ok sid =>
         match (get_role_definition_id_by_name d (target_role_name dir)).2.2 with
         | .error _ => []
         | .ok _ =>
             ((get_users_for_role_definition d sid).2).map
               (fun u => (u.display_name, u.user_principal_name))) := by
  unfold migrate_effects
  dsimp only
  split
  · simp only [displayed_members_append, displayed_members_cons_none,
      get_role_definition_id_by_name_no_member_line, displayed_members_nil,
      member_line_of_modeBanner, member_line_of_directionBanner,
      List.append_nil, List.nil_append]
  · split
    · simp only [displayed_members_append, displayed_members_cons_none,
        get_role_definition_id_by_name_no_member_line, displayed_members_nil,
        member_line_of_modeBanner, member_line_of_directionBanner,
        List.append_nil, List.nil_append]
    · split
      · rename_i hEmpty
        rw [List.isEmpty_iff.mp hEmpty]
        simp only [displayed_members_append, displayed_members_cons_none,
          get_role_definition_id_by_name_no_member_line, displayed_members_nil,
          member_line_of_modeBanner, member_line_of_directionBanner,
          member_line_of_nothingToDo, List.map_nil,
          List.append_nil, List.nil_append]
      · split
        · simp only [displayed_members_append, displayed_members_cons_none,
            get_role_definition_id_by_name_no_member_line, displayed_members_nil,
            displayed_members_member_lines,
            member_line_of_modeBanner, member_line_of_directionBanner,
            member_line_of_foundMembers, member_line_of_dryRunComplete,
            List.append_nil, List.nil_append]
        · split
          · simp only [displayed_members_append, displayed_members_cons_none,
              get_role_definition_id_by_name_no_member_line, displayed_members_nil,
              displayed_members_member_lines, migrate_loop_no_member_line,
              member_line_of_modeBanner, member_line_of_directionBanner,
              member_line_of_foundMembers, member_line_of_startingMigration,
              List.append_nil, List.nil_append]
          · simp only [displayed_members_append, displayed_members_cons_none,
              get_role_definition_id_by_name_no_member_line, displayed_members_nil,
              displayed_members_member_lines, migrate_loop_no_member_line,
              member_line_of_modeBanner, member_line_of_directionBanner,
              member_line_of_foundMembers, member_line_of_startingMigration,
              member_line_of_stateSaved, member_line_of_migrationComplete,
              List.append_nil, List.nil_append]

lemma migrate_effects_roleNotFound_no_mutation (d : Directory) (dir : Direction)
    (dry : Bool) (n : String) :
    (migrate_effects d dir dry).result = .error (.roleNotFound n) →
    ∀ c ∈ (migrate_effects d dir dry).dirCalls, c.isMutation = false := by
  unfold migrate_effects
  dsimp only
  split
  · intro _ c hc
    rw [get_role_definition_id_by_name_calls] at hc
    simp only [List.mem_singleton] at hc
    subst hc; rfl
  · split
    · intro _ c hc
      rw [get_role_definition_id_by_name_calls, get_role_definition_id_by_name_calls] at hc
      simp only [List.mem_append, List.mem_singleton] at hc
      rcases hc with h | h <;> (subst h; rfl)
    · split
      · intro _
        exact resolution_calls_no_mutation d _ _ _
      · split
        · intro _
          exact resolution_calls_no_mutation d _ _ _
        · split
          · rename_i e heqL
            intro hres
            obtain rfl : e = .roleNotFound n := Except.error.inj hres
            rcases migrate_loop_error_shape d _ _ _ _ _ _ heqL with ⟨u, hu⟩ | ⟨u, hu⟩ <;>
              exact absurd hu (by simp)
          · intro hres
            exact absurd hres (by simp)

lemma migrate_effects_dry_last (d : Directory) (dir : Direction) :
    (migrate_effects d dir true).result = .ok () →
    (migrate_effects d dir true).output.getLast? =
        some (OutputEvent.nothingToDo (source_role_name dir)) ∨
      (migrate_effects d dir true).output.getLast? = some OutputEvent.dryRunComplete := by
  unfold migrate_effects
  dsimp only
  split
  · intro h; exact absurd h (by simp)
  · split
    · intro h; exact absurd h (by simp)
    · split
      · intro _
        left
        exact List.getLast?_concat _
      · intro _
        right
        rw [if_pos rfl]
        exact List.getLast?_concat _

lemma migrate_effects_ok_resolutions (d : Directory) (dir : Direction) (dry : Bool) :
    (migrate_effects d dir dry).result = .ok () →
    ∃ sid tid, (get_role_definition_id_by_name d (source_role_name dir)).2.2 = .ok sid ∧
      (get_role_definition_id_by_name d (target_role_name dir)).2.2 = .ok tid := by
  unfold migrate_effects
  dsimp only
  split
  · intro h; exact absurd h (by simp)
  · rename_i sid heqS
    split
    · intro h; exact absurd h (by simp)
    · rename_i tid heqT
      intro _
      exact ⟨sid, tid, heqS, heqT⟩

-- ---------- Claim theorems ----------

/-- Claim C5 (confirmed): if rollback is requested and no persisted
migration record exists, the run stops at the cannot-rollback message: no
directory call of any kind is made (no grant resolution, no assignment
listing, no mutation), the state file stays absent, and `migrate` is never
entered. -/
theorem rollback_without_state_aborts (d : Directory) (ts : String) (dry : Bool) :
    role_changes_main d none ts true dry =
      ⟨[], [OutputEvent.noPreviousMigration], none, .ok ()⟩ := rfl

/-- Claim C7 (confirmed): grant-name resolution is exact-match only — an
`ok` result is a definition from the directory whose display name equals
the requested name — and when no definition matches exactly the resolution
yields the grant-not-found error, not an empty result; a run that fails
this way makes no mutation call and leaves the state file unchanged. -/
theorem role_resolution_exact_match (d : Directory) (name : String)
    (fs : Option JVal) (ts : String) (dir : Direction) (dry : Bool) :
    (∀ rd, (get_role_definition_by_name d name).2 = .ok rd →
        rd ∈ d.role_definitions ∧ rd.display_name = name) ∧
    ((∀ rd ∈ d.role_definitions, rd.display_name ≠ name) →
        (get_role_definition_by_name d name).2 = .error (.roleNotFound name)) ∧
    (∀ n, (migrate d fs ts dir dry).result = .error (.roleNotFound n) →
        (migrate d fs ts dir dry).fileState = fs ∧
        ∀ c ∈ (migrate d fs ts dir dry).dirCalls, c.isMutation = false) := by
  refine ⟨?_, ?_, ?_⟩
  · intro rd h
    unfold get_role_definition_by_name at h
    dsimp only at h
    split at h
    · rename_i rd2 heq
      obtain rfl : rd2 = rd := Except.ok.inj h
      refine ⟨List.mem_of_find?_eq_some heq, ?_⟩
      have := List.find?_some heq
      exact beq_iff_eq.mp this
    · exact absurd h (by simp)
  · intro hno
    unfold get_role_definition_by_name
    dsimp only
    split
    · rename_i rd heq
      have hmem := List.mem_of_find?_eq_some heq
      have h3 := List.find?_some heq
      exact absurd (beq_iff_eq.mp h3) (hno rd hmem)
    · rfl
  · intro n h
    refine ⟨migrate_error_fileState d fs ts dir dry _ h, ?_⟩
    exact migrate_effects_roleNotFound_no_mutation d dir dry n h

/-- Witness for C7 at concrete tenants: resolution of the source role in
`exDirB` succeeds exactly, resolution in the empty tenant fails with the
grant-not-found error, and the failing run leaves the (absent) state file
untouched. -/
theorem role_resolution_exact_match_witness :
    (roleTMP ∈ exDirB.role_definitions ∧ roleTMP.display_name = "Too Many Perms") ∧
    (get_role_definition_by_name exDirNoRoles "Too Many Perms").2 =
      .error (.roleNotFound "Too Many Perms") ∧
    (migrate exDirNoRoles none "t0" .forward false).fileState = none := by
  refine ⟨?_, ?_, ?_⟩
  · exact (role_resolution_exact_match exDirB "Too Many Perms" none "t0" .forward false).1
      roleTMP rfl
  · exact (role_resolution_exact_match exDirNoRoles "Too Many Perms" none "t0" .forward
      false).2.1 (by intro rd h; simp [exDirNoRoles] at h)
  · exact ((role_resolution_exact_match exDirNoRoles "Too Many Perms" none "t0" .forward
      false).2.2 "Too Many Perms" rfl).1

/-- Claim C9 (confirmed): every candidate principal of the source grant is
fetched (the resolution loop continues past failures, it never aborts),
every planned principal is one a directory fetch successfully resolved,
and any principal that resolves as a user with a truthy login name ends up
in the plan no matter how the other candidates fail. -/
theorem unresolvable_principals_skipped (d : Directory) (rid : String) :
    ((get_users_for_role_definition d rid).1 =
      .listRoleAssignments :: (candidate_principal_ids d rid).map DirCall.getUser) ∧
    (∀ u ∈ (get_users_for_role_definition d rid).2,
      ∃ uid ∈ candidate_principal_ids d rid, d.lookupUser uid = some u) ∧
    (∀ uid ∈ candidate_principal_ids d rid, ∀ u, d.lookupUser uid = some u →
      upn_truthy u.user_principal_name = true →
      u ∈ (get_users_for_role_definition d rid).2) := by
  refine ⟨get_users_for_role_definition_calls d rid, ?_, ?_⟩
  · intro u hu
    obtain ⟨uid, hmem, hl, _⟩ := get_users_for_role_definition_mem d rid u hu
    exact ⟨uid, hmem, hl⟩
  · intro uid hmem u hl hupn
    exact get_users_for_role_definition_complete d rid uid u hmem hl hupn

/-- Witness for C9: in the mixed tenant the group id `gid-g` fails to
resolve, yet Alice is still planned, and every one of the four candidates
was fetched. -/
theorem unresolvable_principals_skipped_witness :
    userA ∈ (get_users_for_role_definition exDirMixed "tmp-id").2 ∧
    (get_users_for_role_definition exDirMixed "tmp-id").1 =
      .listRoleAssignments :: (candidate_principal_ids exDirMixed "tmp-id").map
        DirCall.getUser := by
  constructor
  · exact (unresolvable_principals_skipped exDirMixed "tmp-id").2.2 "uid-a" (by decide)
      userA rfl rfl
  · exact (unresolvable_principals_skipped exDirMixed "tmp-id").1

/-- Claim C10 (confirmed): a principal resolving as a directory user whose
`userPrincipalName` is absent or empty is silently excluded from the plan;
every planned principal, in every run, carries a nonempty user principal
name. -/
theorem plan_members_have_upn (d : Directory) (rid : String) (dir : Direction) :
    (∀ u ∈ (get_users_for_role_definition d rid).2,
        ∃ s, u.user_principal_name = some s ∧ s ≠ "") ∧
    (∀ u : User, upn_truthy u.user_principal_name = false →
        u ∉ (get_users_for_role_definition d rid).2) ∧
    (∀ u ∈ plan_members d dir, ∃ s, u.user_principal_name = some s ∧ s ≠ "") := by
  have key : ∀ rid2 : String, ∀ u ∈ (get_users_for_role_definition d rid2).2,
      ∃ s, u.user_principal_name = some s ∧ s ≠ "" := by
    intro rid2 u hu
    obtain ⟨uid, _, _, htr⟩ := get_users_for_role_definition_mem d rid2 u hu
    cases hupn : u.user_principal_name with
    | none => rw [hupn] at htr; simp [upn_truthy] at htr
    | some s =>
        refine ⟨s, rfl, ?_⟩
        rw [hupn] at htr
        simp [upn_truthy] at htr
        exact htr
  refine ⟨key rid, ?_, ?_⟩
  · intro u hf hu
    obtain ⟨uid, _, _, htr⟩ := get_users_for_role_definition_mem d rid u hu
    rw [hf] at htr
    cases htr
  · intro u hu
    cases heq : (get_role_definition_id_by_name d (source_role_name dir)).2.2 with
    | ok sid =>
        simp only [plan_members, heq] at hu
        exact key sid u hu
    | error e =>
        simp only [plan_members, heq] at hu
        simp at hu

/-- Witness for C10: in the mixed tenant the user without a UPN and the
user with an empty UPN are excluded from the plan, while Alice (nonempty
UPN) is planned. -/
theorem plan_members_have_upn_witness :
    userN ∉ (get_users_for_role_definition exDirMixed "tmp-id").2 ∧
    userE ∉ (get_users_for_role_definition exDirMixed "tmp-id").2 ∧
    (∃ s, userA.user_principal_name = some s ∧ s ≠ "") := by
  refine ⟨?_, ?_, ?_⟩
  · exact (plan_members_have_upn exDirMixed "tmp-id" .forward).2.1 userN rfl
  · exact (plan_members_have_upn exDirMixed "tmp-id" .forward).2.1 userE rfl
  · exact (plan_members_have_upn exDirMixed "tmp-id" .forward).1 userA (by decide)

/-- Claim C3 (confirmed): in a live run, every revoke of a grant for a
principal is strictly preceded by an apply for that same principal, and if
the apply call attempted for a principal fails, no revoke call is ever
made for that principal in the run. -/
theorem grant_before_revoke (d : Directory) (fs : Option JVal) (ts : String)
    (dir : Direction) :
    apply_before_revoke (migrate d fs ts dir false).dirCalls [] = true ∧
    (∀ t u, DirCall.applyGrant t u ∈ (migrate d fs ts dir false).dirCalls →
      d.apply_ok t u = false →
      ∀ s, DirCall.revokeGrant s u ∉ (migrate d fs ts dir false).dirCalls) := by
  constructor
  · exact migrate_effects_apply_before_revoke d dir false
  · intro t u happly hfail s hrev
    obtain ⟨ht, _⟩ := migrate_effects_apply_mem d dir false t u happly
    obtain ⟨tid, ht2, htrue⟩ := migrate_effects_revoke_mem d dir false s u hrev
    rw [ht] at ht2
    obtain rfl : t = tid := Except.ok.inj ht2
    rw [hfail] at htrue
    cases htrue

/-- Witness for C3: in the failing-apply tenant, Bob's apply call is made
and fails, and no revoke call for Bob appears in the run. -/
theorem grant_before_revoke_witness :
    DirCall.applyGrant "jrp-id" "uid-b" ∈ (migrate exDirB none "t0" .forward false).dirCalls ∧
    exDirB.apply_ok "jrp-id" "uid-b" = false ∧
    DirCall.revokeGrant "tmp-id" "uid-b" ∉
      (migrate exDirB none "t0" .forward false).dirCalls := by
  refine ⟨by decide, rfl, ?_⟩
  exact (grant_before_revoke exDirB none "t0" .forward).2 "jrp-id" "uid-b" (by decide)
    rfl "tmp-id"

/-- Claim C4 (confirmed): a dry run makes zero mutation calls and leaves
the state file unchanged for every tenant state; it displays exactly the
member lines a live run on the same tenant displays, and (when it
completes without a resolution error) that list is exactly the plan that a
live run would act on — every live apply call targets a planned principal
— and the dry run ends with a no-changes marker (the nothing-to-do line or
the dry-run-complete line). -/
theorem dry_run_no_mutations (d : Directory) (fs fs2 : Option JVal) (ts ts2 : String)
    (dir : Direction) :
    (∀ c ∈ (migrate d fs ts dir true).dirCalls, c.isMutation = false) ∧
    (migrate d fs ts dir true).fileState = fs ∧
    displayed_members (migrate d fs ts dir true).output =
      displayed_members (migrate d fs2 ts2 dir false).output ∧
    ((migrate d fs ts dir true).result = .ok () →
      displayed_members (migrate d fs ts dir true).output =
        (plan_members d dir).map (fun u => (u.display_name, u.user_principal_name))) ∧
    (∀ t u, DirCall.applyGrant t u ∈ (migrate d fs2 ts2 dir false).dirCalls →
      u ∈ (plan_members d dir).map User.id) ∧
    ((migrate d fs ts dir true).result = .ok () →
      (migrate d fs ts dir true).output.getLast? =
          some (OutputEvent.nothingToDo (source_role_name dir)) ∨
        (migrate d fs ts dir true).output.getLast? = some OutputEvent.dryRunComplete) := by
  refine ⟨migrate_effects_dry_no_mutation d dir, ?_, ?_, ?_, ?_, ?_⟩
  · rw [migrate_effects_saved_fileState, migrate_effects_dry_saved_none]
  · exact (migrate_effects_displayed d dir true).trans
      (migrate_effects_displayed d dir false).symm
  · intro hok
    obtain ⟨sid, tid, heqS, heqT⟩ := migrate_effects_ok_resolutions d dir true hok
    have hd := migrate_effects_displayed d dir true
    simp only [heqS, heqT] at hd
    have hp : plan_members d dir = (get_users_for_role_definition d sid).2 := by
      simp only [plan_members, heqS]
    rw [hp]
    exact hd
  · intro t u h
    exact (migrate_effects_apply_mem d dir false t u h).2
  · exact migrate_effects_dry_last d dir

/-- Witness for C4: the dry run over the mixed tenant succeeds, shows
exactly Alice, ends with the dry-run-complete marker, and the live apply
call for Alice targets a planned principal. -/
theorem dry_run_no_mutations_witness :
    displayed_members (migrate exDirMixed none "t0" .forward true).output =
      [("Alice", some "alice@contoso.com")] ∧
    ((migrate exDirMixed none "t0" .forward true).output.getLast? =
        some (OutputEvent.nothingToDo (source_role_name .forward)) ∨
      (migrate exDirMixed none "t0" .forward true).output.getLast? =
        some OutputEvent.dryRunComplete) ∧
    "uid-a" ∈ (plan_members exDirMixed .forward).map User.id := by
  refine ⟨?_, ?_, ?_⟩
  · have h := (dry_run_no_mutations exDirMixed none none "t0" "t0" .forward).2.2.2.1 rfl
    rw [h]
    decide
  · exact (dry_run_no_mutations exDirMixed none none "t0" "t0" .forward).2.2.2.2.2 rfl
  · exact (dry_run_no_mutations exDirMixed none none "t0" "t0" .forward).2.2.2.2.1
      "jrp-id" "uid-a" (by decide)

/-- Claim C8 (confirmed): when both role names resolve but zero principals
hold the source role, the run (live or dry) returns normally with the
nothing-to-do line, performs no apply or revoke call, and never writes the
state file — whatever record was persisted before is left unchanged. -/
theorem empty_plan_nothing_to_do (d : Directory) (fs : Option JVal) (ts : String)
    (dir : Direction) (dry : Bool) (sid tid : String)
    (hs : (get_role_definition_id_by_name d (source_role_name dir)).2.2 = .ok sid)
    (ht : (get_role_definition_id_by_name d (target_role_name dir)).2.2 = .ok tid)
    (hm : (get_users_for_role_definition d sid).2 = []) :
    (migrate d fs ts dir dry).result = .ok () ∧
    (migrate d fs ts dir dry).fileState = fs ∧
    (∀ c ∈ (migrate d fs ts dir dry).dirCalls, c.isMutation = false) ∧
    OutputEvent.nothingToDo (source_role_name dir) ∈ (migrate d fs ts dir dry).output := by
  have hme : migrate_effects d dir dry =
      ⟨(get_role_definition_id_by_name d (source_role_name dir)).1 ++
          (get_role_definition_id_by_name d (target_role_name dir)).1 ++
          (get_users_for_role_definition d sid).1,
        ([.modeBanner dry, .directionBanner (source_role_name dir) (target_role_name dir)] ++
          (get_role_definition_id_by_name d (source_role_name dir)).2.1 ++
          (get_role_definition_id_by_name d (target_role_name dir)).2.1 ++
          [.nothingToDo (source_role_name dir)]),
        none, .ok ()⟩ := by
    unfold migrate_effects
    dsimp only
    simp only [hs, ht, hm, List.isEmpty_nil, if_true]
  refine ⟨?_, ?_, ?_, ?_⟩
  · show (migrate_effects d dir dry).result = .ok ()
    rw [hme]
  · show (match (migrate_effects d dir dry).saved with
      | some affected => save_state ts fs dir affected
      | none => fs) = fs
    rw [hme]
  · show ∀ c ∈ (migrate_effects d dir dry).dirCalls, c.isMutation = false
    rw [hme]
    exact resolution_calls_no_mutation d _ _ _
  · show OutputEvent.nothingToDo (source_role_name dir) ∈ (migrate_effects d dir dry).output
    rw [hme]
    simp

/-- Witness for C8: the empty tenant run completes normally and leaves the
previously persisted record exactly as it was. -/
theorem empty_plan_nothing_to_do_witness :
    (migrate exDirEmpty (some exRecA) "t9" .forward false).result = .ok () ∧
    (migrate exDirEmpty (some exRecA) "t9" .forward false).fileState = some exRecA := by
  have h := empty_plan_nothing_to_do exDirEmpty (some exRecA) "t9" .forward false
    "tmp-id" "jrp-id" rfl rfl rfl
  exact ⟨h.1, h.2.1⟩

/-- Counterexample for C6: the record the code persists uses the top-level
keys `from_role`, `to_role` and `affected_users` (snake_case), not the
`fromRole` / `toRole` / `affectedUsers` field names the claim asserts. -/
theorem state_record_field_names_cex :
    jsonKeys (save_state_json "2024-01-01T00:00:00Z" .forward
        [⟨"uid-a", "Alice", "alice@contoso.com"⟩]) =
      ["timestamp", "direction", "from_role", "to_role", "affected_users"] ∧
    "fromRole" ∉ jsonKeys (save_state_json "2024-01-01T00:00:00Z" .forward
        [⟨"uid-a", "Alice", "alice@contoso.com"⟩]) ∧
    "affectedUsers" ∉ jsonKeys (save_state_json "2024-01-01T00:00:00Z" .forward
        [⟨"uid-a", "Alice", "alice@contoso.com"⟩]) := by
  refine ⟨rfl, by decide, by decide⟩

/-- Claim C6 as amended (proved): the persisted record is an object with
exactly the keys timestamp, direction, from_role, to_role and
affected_users (in that order); `direction` is the string forward or
rollback; each affected-user entry has exactly the keys userId,
displayName and userPrincipalName; and `save_state` writes the new record
regardless of — and overwriting — whatever was persisted before. -/
theorem state_record_format (ts : String) (dir : Direction) (aff : List AffectedUser)
    (prev : Option JVal) :
    save_state ts prev dir aff = some (save_state_json ts dir aff) ∧
    jsonKeys (save_state_json ts dir aff) =
      ["timestamp", "direction", "from_role", "to_role", "affected_users"] ∧
    (∀ u ∈ aff, jsonKeys (affected_user_json u) =
      ["userId", "displayName", "userPrincipalName"]) ∧
    (direction_str dir = "forward" ∨ direction_str dir = "rollback") := by
  refine ⟨rfl, rfl, fun u _ => rfl, ?_⟩
  cases dir
  · exact Or.inl rfl
  · exact Or.inr rfl

/-- Witness for C6 (amended): a concrete save overwrites a different
previous record, and a concrete affected-user entry has the three camelCase
keys. -/
theorem state_record_format_witness :
    save_state "t" (some exRecNone) .forward [⟨"uid-a", "Alice", "alice@contoso.com"⟩] =
      some (save_state_json "t" .forward [⟨"uid-a", "Alice", "alice@contoso.com"⟩]) ∧
    jsonKeys (affected_user_json ⟨"uid-a", "Alice", "alice@contoso.com"⟩) =
      ["userId", "displayName", "userPrincipalName"] := by
  have h := state_record_format "t" .forward [⟨"uid-a", "Alice", "alice@contoso.com"⟩]
    (some exRecNone)
  exact ⟨h.1, h.2.2.1 _ (List.mem_singleton.mpr rfl)⟩

/-- Counterexample for C1: in the three-holder tenant where Bob's apply
call fails, the live run does not continue to Carol (her apply call is
never made — only Alice's migration happened), and no MigrationRecord is
persisted at all (the state file stays absent), whereas the claim requires
the run to continue and the persisted record to contain exactly Alice and
Carol. -/
theorem apply_failure_not_isolated_cex :
    (migrate exDirB none "t0" .forward false).result =
      .error (.applyFailed "jrp-id" "uid-b") ∧
    (migrate exDirB none "t0" .forward false).fileState = none ∧
    DirCall.applyGrant "jrp-id" "uid-c" ∉ (migrate exDirB none "t0" .forward false).dirCalls ∧
    DirCall.applyGrant "jrp-id" "uid-a" ∈ (migrate exDirB none "t0" .forward false).dirCalls := by
  refine ⟨rfl, rfl, by decide, by decide⟩

/-- Claim C1 as amended (proved): a failing apply call during a live run is
not isolated to its principal — the exception aborts the whole run: the run
ends in an error, the state file is left exactly as it was (no
MigrationRecord with the successful principals is persisted), and the loop
stops at the failing principal, touching none of the principals after it
and never revoking the failing principal's source grant. -/
theorem apply_failure_aborts_run (d : Directory) (fs : Option JVal) (ts : String)
    (dir : Direction) (e : MigError) (tname sname tid sid : String) (u : User)
    (rest : List User)
    (herr : (migrate d fs ts dir false).result = .error e)
    (hfail : d.apply_ok tid u.id = false) :
    (migrate d fs ts dir false).fileState = fs ∧
    migrate_loop d tname sname tid sid (u :: rest) =
      ([DirCall.applyGrant tid u.id],
       [OutputEvent.processingUser u.display_name (upn_or_unknown u.user_principal_name),
        OutputEvent.addingRole tname],
       .error (.applyFailed tid u.id)) := by
  refine ⟨migrate_error_fileState d fs ts dir false e herr, ?_⟩
  rw [migrate_loop]
  simp only [hfail, if_false, Bool.false_eq_true]

/-- Witness for C1 (amended): at the failing tenant the run errors with the
state file unchanged, and the loop started at Bob makes only Bob's failing
apply call, leaving Carol untouched. -/
theorem apply_failure_aborts_run_witness :
    (migrate exDirB none "t0" .forward false).fileState = none ∧
    migrate_loop exDirB "Just Right Perms" "Too Many Perms" "jrp-id" "tmp-id"
        [userB, userC] =
      ([DirCall.applyGrant "jrp-id" "uid-b"],
       [OutputEvent.processingUser "Bob" "bob@contoso.com",
        OutputEvent.addingRole "Just Right Perms"],
       .error (.applyFailed "jrp-id" "uid-b")) :=
  apply_failure_aborts_run exDirB none "t0" .forward
    (.applyFailed "jrp-id" "uid-b") "Just Right Perms" "Too Many Perms" "jrp-id" "tmp-id"
    userB [userC] rfl rfl

/-- Counterexample for C2: with a persisted record naming only Alice but a
directory in which Bob currently holds the target role, the rollback run
mutates exactly Bob (applying the old role to him and revoking the new
one) and never touches Alice; moreover replacing the record's contents by
an empty affected list changes nothing about the run — the persisted
record does not determine which principals are restored. -/
theorem rollback_ignores_record_cex :
    ((role_changes_main exDirRoll (some exRecA) "t1" true false).dirCalls.filter
        DirCall.isMutation =
      [DirCall.applyGrant "tmp-id" "uid-b", DirCall.revokeGrant "jrp-id" "uid-b"]) ∧
    DirCall.applyGrant "tmp-id" "uid-a" ∉
      (role_changes_main exDirRoll (some exRecA) "t1" true false).dirCalls ∧
    (role_changes_main exDirRoll (some exRecNone) "t1" true false).dirCalls =
      (role_changes_main exDirRoll (some exRecA) "t1" true false).dirCalls ∧
    (role_changes_main exDirRoll (some exRecNone) "t1" true false).output =
      (role_changes_main exDirRoll (some exRecA) "t1" true false).output := by
  refine ⟨rfl, by decide, rfl, rfl⟩

/-- Claim C2 as amended (proved): rollback is Forward with the two grant
endpoints swapped, and the persisted record is consulted only for
existence — a rollback with no record stops before any directory call,
while the contents of an existing record are never read: two rollback runs
over records with different contents make identical directory calls,
print identical output and end identically, and every principal a
rollback's apply call touches comes from a fresh enumeration of the
current target-grant holders, not from the record. -/
theorem rollback_swapped_endpoints (d : Directory) (rec1 rec2 : JVal) (ts : String)
    (dry : Bool) :
    (role_changes_main d (some rec1) ts true dry).dirCalls =
      (role_changes_main d (some rec2) ts true dry).dirCalls ∧
    (role_changes_main d (some rec1) ts true dry).output =
      (role_changes_main d (some rec2) ts true dry).output ∧
    (role_changes_main d (some rec1) ts true dry).result =
      (role_changes_main d (some rec2) ts true dry).result ∧
    source_role_name .rollback = target_role_name .forward ∧
    target_role_name .rollback = source_role_name .forward ∧
    (role_changes_main d none ts true dry).dirCalls = [] ∧
    (∀ t u, DirCall.applyGrant t u ∈ (role_changes_main d (some rec1) ts true dry).dirCalls →
      u ∈ (plan_members d .rollback).map User.id) := by
  refine ⟨rfl, rfl, rfl, rfl, rfl, rfl, ?_⟩
  intro t u h
  have h2 : DirCall.applyGrant t u ∈ (migrate_effects d Direction.rollback dry).dirCalls := h
  exact (migrate_effects_apply_mem d .rollback dry t u h2).2

/-- Witness for C2 (amended): Bob, the principal the rollback run applies
the old role to, is indeed a current target-role holder in the fresh
enumeration. -/
theorem rollback_swapped_endpoints_witness :
    "uid-b" ∈ (plan_members exDirRoll .rollback).map User.id :=
  (rollback_swapped_endpoints exDirRoll exRecA exRecNone "t1" false).2.2.2.2.2.2
    "tmp-id" "uid-b" (by decide)
